import Mathlib

/-!
Verification of the Decision + Remediation pipeline of the
agent-hook-vault-radar repository: a shallow embedding of the decision
engine (`internal/decision/decision.go`), the policy matcher and strategy
registry (`internal/remediation`), and theorems about them.

Go strings are modelled as Lean `String`/`List Char`; all string data in
this pipeline (severities, finding types, patterns) is ASCII, where byte
indexing and char indexing coincide.  Go `error` values are modelled as
`Option String`/`Except String`; Go `time.Duration` (int64 nanoseconds) as
`Int`; Go `map[string]any` metadata as an insertion-ordered association
list over an explicit value type.
-/

/-- Go `strings.ToLower`, restricted to its ASCII behaviour (`Char.toLower`
lowercases exactly the ASCII uppercase letters, as Go does on ASCII). -/
def toLowerStr (s : String) : String := ⟨s.data.map Char.toLower⟩

/-- Go `strings.ToUpper`, restricted to its ASCII behaviour. -/
def toUpperStr (s : String) : String := ⟨s.data.map Char.toUpper⟩

/-- pkg/types: a single security finding from a scan. -/
structure Finding where
  severity : String
  type : String
  location : String
  description : String
deriving DecidableEq, Repr

/-- pkg/types: results of a Vault Radar scan.  `ScanDuration` is not read by
the decision or remediation code and `error` models the Go `error` field. -/
structure ScanResults where
  hasFindings : Bool
  findings : List Finding
  scanDuration : Int
  error : Option String
deriving DecidableEq, Repr

/-- Values stored in `Decision.Metadata` (Go `map[string]any`): the decision
engine only ever stores an error string, a findings list, or a count. -/
inductive MetaValue where
  | str : String → MetaValue
  | fnds : List Finding → MetaValue
  | num : Nat → MetaValue
deriving DecidableEq, Repr

/-- pkg/types: the hook's block/allow decision.  Metadata is modelled as an
insertion-ordered association list (each Go key is assigned at most once on
every path through the code). -/
structure Decision where
  block : Bool
  reason : String
  metadata : List (String × MetaValue)
deriving DecidableEq, Repr

/-- internal/config: decision-making configuration. -/
structure DecisionConfig where
  blockOnFindings : Bool
  severityThreshold : String
deriving DecidableEq, Repr

/-- internal/config: when a remediation protocol should execute. -/
structure TriggerConfig where
  onBlock : Bool
  onFindings : Bool
  severityThreshold : String
  findingTypes : List String
deriving DecidableEq, Repr

/-- internal/config: a remediation strategy configuration.  The `config`
payload is opaque to the remediation engine and not modelled. -/
structure StrategyConfig where
  type : String
deriving DecidableEq, Repr

/-- internal/remediation: a protocol with triggers and strategies. -/
structure Protocol where
  name : String
  triggers : TriggerConfig
  strategies : List StrategyConfig
deriving DecidableEq, Repr

/-- pkg/types: context handed to remediation strategies.  The raw hook input
payload is opaque to the engine and not modelled. -/
structure RemediationInput where
  scanResults : ScanResults
  decision : Decision
  timestamp : Int
  framework : String
deriving DecidableEq, Repr

/-- pkg/types: result of executing a single remediation strategy. -/
structure RemediationResult where
  strategyType : String
  success : Bool
  message : String
  duration : Int
  error : Option String
deriving DecidableEq, Repr

/-- pkg/types: aggregate results from executing a remediation protocol. -/
structure RemediationResults where
  executed : Bool
  results : List RemediationResult
  totalDuration : Int
  protocolName : String
deriving DecidableEq, Repr

namespace Decision

/-- internal/decision `getSeverityLevel`: severity string to numeric level
(Go `switch` on `strings.ToLower(severity)`). -/
def getSeverityLevel (severity : String) : Nat :=
  let s := toLowerStr severity
  if s = "critical" then 4
  else if s = "high" then 3
  else if s = "medium" ∨ s = "info" then 2
  else if s = "low" then 1
  else 0

end Decision

namespace Remediation

/-- internal/remediation `getSeverityLevel` (the policy matcher's copy,
textually identical to the decision engine's). -/
def getSeverityLevel (severity : String) : Nat :=
  let s := toLowerStr severity
  if s = "critical" then 4
  else if s = "high" then 3
  else if s = "medium" ∨ s = "info" then 2
  else if s = "low" then 1
  else 0

end Remediation

/-- Severity mapping as the specification words it: ordered set low=1,
medium/info=2, high=3, critical=4, case-insensitive, every other string
mapping to 0. -/
def specSeverityLevel (severity : String) : Nat :=
  let s := toLowerStr severity
  if s = "low" then 1
  else if s = "medium" ∨ s = "info" then 2
  else if s = "high" then 3
  else if s = "critical" then 4
  else 0

/-- internal/decision `filterBySeverity`: keep findings whose level meets or
exceeds the configured threshold (Go loop with append = filter). -/
def filterBySeverity (cfg : DecisionConfig) (findings : List Finding) : List Finding :=
  let threshold := Decision.getSeverityLevel cfg.severityThreshold
  findings.filter (fun f => decide (Decision.getSeverityLevel f.severity ≥ threshold))

/-- internal/decision `buildReasonMessage`: human-readable explanation of a
block, enumerating the findings. -/
def buildReasonMessage (findings : List Finding) : String :=
  if findings.length = 0 then
    "Security scan completed with no findings"
  else
    let header := "\n" ++ "Vault Radar detected " ++
      (if findings.length = 1 then "1 security finding:\n\n"
       else toString findings.length ++ " security findings:\n\n")
    let body := String.join (findings.enum.map (fun p =>
      toString (p.1 + 1) ++ ". [" ++ toUpperStr p.2.severity ++ "] " ++ p.2.type ++
      (if p.2.description ≠ "" then ": " ++ p.2.description else "") ++
      (if p.2.location ≠ "" then " (" ++ p.2.location ++ ")" else "") ++
      "\n"))
    header ++ body ++ "\nPlease remove or redact sensitive information before proceeding."

/-- internal/decision `Engine.Evaluate`: produce a decision from scan
results.  The Go method returns `(types.Decision, error)`; the error is
`nil` on every path, modelled as the second component. -/
def Evaluate (cfg : DecisionConfig) (results : ScanResults) : Decision × Option String :=
  let decision : Decision := { block := false, reason := "", metadata := [] }
  match results.error with
  | some e => ({ decision with metadata := [("scan_error", MetaValue.str e)] }, none)
  | none =>
    if !results.hasFindings then (decision, none)
    else
      let relevantFindings := filterBySeverity cfg results.findings
      if relevantFindings.length = 0 then
        ({ decision with metadata := [("filtered_findings", MetaValue.fnds results.findings)] },
         none)
      else if cfg.blockOnFindings then
        ({ block := true,
           reason := buildReasonMessage relevantFindings,
           metadata := [("findings", MetaValue.fnds relevantFindings),
                        ("finding_count", MetaValue.num relevantFindings.length)] },
         none)
      else (decision, none)

/-- internal/decision `formatDuration`: Go computes `ms := d.Milliseconds()`
(int64 nanoseconds divided by 1e6, truncated toward zero) and renders either
`"%dms"` or `"%.1fs"` of `float64(ms)/1000.0`.  The float step is modelled
as exact rounding of ms/1000 to one decimal digit (half to even): for every
`|ms| < 2^43` (the full int64-nanosecond Duration range) the binary double
differs from ms/1000 by less than 1/2000, so the model agrees with the IEEE
computation at every input that is not an exact tie (ms ≡ 50 mod 100). -/
def formatDuration (d : Int) : String :=
  let ms := d.tdiv 1000000
  if ms < 1000 then
    toString ms ++ "ms"
  else
    let msN := ms.toNat
    let q := msN / 100
    let r := msN % 100
    let t := if r < 50 then q else if 50 < r then q + 1 else if q % 2 = 0 then q else q + 1
    toString (t / 10) ++ "." ++ toString (t % 10) ++ "s"

/-- internal/decision `buildRemediationSummary`: formatted summary of
remediation results (header plus one glyph-prefixed line per result). -/
def buildRemediationSummary (results : RemediationResults) : String :=
  let header := "Remediation actions taken (" ++ toString results.results.length ++
    (if results.results.length = 1 then " strategy, " else " strategies, ") ++
    formatDuration results.totalDuration ++ " total):"
  let lines := results.results.map (fun r =>
    "\n  " ++ (if r.success then "✓ " else "✗ ") ++ r.message ++
    " (" ++ formatDuration r.duration ++ ")")
  header ++ String.join lines

/-- internal/decision `EnrichWithRemediation`: appends remediation results
to the decision reason.  The Go function mutates `*types.Decision` in place;
modelled as returning the updated decision. -/
def EnrichWithRemediation (decision : Decision) (results : RemediationResults) : Decision :=
  if !results.executed || results.results.length == 0 then
    decision
  else
    let summary := buildRemediationSummary results
    if decision.reason ≠ "" then
      { decision with reason := decision.reason ++ "\n\n" ++ summary }
    else
      { decision with reason := summary }

/-- Go `strings.Split(pattern, "*")`: split on every occurrence of the `*`
separator, keeping empty segments (n separators give n+1 parts). -/
def splitOnStar : List Char → List (List Char)
  | [] => [[]]
  | c :: rest =>
    if c = '*' then
      [] :: splitOnStar rest
    else
      match splitOnStar rest with
      | [] => [[c]]
      | p :: ps => (c :: p) :: ps

/-- Go `strings.Index(s, sub)`: index of the first occurrence of `sub` in
`s`, or -1 when absent (0 when `sub` is empty). -/
def strIndex : List Char → List Char → Int
  | [], sub => if sub.isPrefixOf [] then 0 else -1
  | c :: rest, sub =>
    if sub.isPrefixOf (c :: rest) then 0
    else
      let i := strIndex rest sub
      if i = -1 then -1 else i + 1

/-- Middle-parts loop of `matchesPattern` (part_004): scan each non-empty
wildcard-separated middle segment left to right, advancing `currentPos` past
the first occurrence found; fail when a segment is absent. -/
def scanMiddle (findingType : List Char) : List (List Char) → Nat → Bool
  | [], _ => true
  | part :: rest, pos =>
    if part.isEmpty then
      scanMiddle findingType rest pos
    else
      let idx := strIndex (findingType.drop pos) part
      if idx = -1 then false
      else scanMiddle findingType rest (pos + idx.toNat + part.length)

/-- internal/remediation `matchesPattern` on character lists: `*` is the
only wildcard; no wildcard means exact equality; otherwise check the first
part as a required beginning, the last part as a required ending, and scan
the middle parts in order. -/
def matchesPatternChars (findingType pattern : List Char) : Bool :=
  if pattern = ['*'] then true
  else if !pattern.contains '*' then
    decide (findingType = pattern)
  else
    let parts := splitOnStar pattern
    let first := parts.headD []
    if 0 < first.length ∧ ¬ first.isPrefixOf findingType then false
    else
      let last := parts.getLastD []
      if 1 < parts.length ∧ 0 < last.length ∧ ¬ last.isSuffixOf findingType then false
      else scanMiddle findingType ((parts.drop 1).dropLast) first.length

/-- internal/remediation `matchesPattern` on Go strings. -/
def matchesPattern (findingType pattern : String) : Bool :=
  matchesPatternChars findingType.data pattern.data

/-- internal/remediation `Protocol.matchesSeverityThreshold`: some finding
meets or exceeds the threshold. -/
def matchesSeverityThreshold (findings : List Finding) (threshold : String) : Bool :=
  let thresholdLevel := Remediation.getSeverityLevel threshold
  findings.any (fun f => decide (Remediation.getSeverityLevel f.severity ≥ thresholdLevel))

/-- internal/remediation `Protocol.matchesFindingTypes`: some finding's type
matches some pattern. -/
def matchesFindingTypes (findings : List Finding) (patterns : List String) : Bool :=
  findings.any (fun f => patterns.any (fun pattern => matchesPattern f.type pattern))

/-- internal/remediation `Protocol.ShouldExecute`: do this protocol's
triggers match the current state. -/
def ShouldExecute (p : Protocol) (input : RemediationInput) : Bool :=
  if p.triggers.onBlock && !input.decision.block then false
  else if p.triggers.onFindings && !input.scanResults.hasFindings then false
  else if !p.triggers.onBlock && !p.triggers.onFindings then false
  else if p.triggers.severityThreshold != "" && input.scanResults.hasFindings &&
      !matchesSeverityThreshold input.scanResults.findings p.triggers.severityThreshold then
    false
  else if decide (0 < p.triggers.findingTypes.length) && input.scanResults.hasFindings &&
      !matchesFindingTypes input.scanResults.findings p.triggers.findingTypes then
    false
  else true

/-- internal/remediation: a registered strategy.  The Go interface exposes
`GetType` (modelled by `stype`) and `Execute` (modelled by `run`; the
context argument carries only cancellation, which a pure model has no use
for).  `Validate` is only called at registration time and not modelled. -/
structure RemediationStrategy where
  stype : String
  run : RemediationInput → RemediationResult

/-- internal/remediation `Registry.GetStrategy`: look a strategy type up in
the registry map (modelled as an association list with unique keys, which
`RegisterStrategy` enforces), or fail with a not-found error. -/
def GetStrategy (reg : List (String × RemediationStrategy)) (strategyType : String) :
    Except String RemediationStrategy :=
  match reg.find? (fun kv => kv.1 == strategyType) with
  | some kv => Except.ok kv.2
  | none => Except.error ("strategy type \"" ++ strategyType ++ "\" not found")

/-- internal/remediation `Engine.executeStrategy` (worker body): run the
strategy and stamp the result with the strategy's type.  The measured
wall-clock duration, panic recovery, and the deadline-raced channel send are
real-time/concurrency effects outside the pure model; on the normal path
every worker delivers exactly the stamped result. -/
def executeStrategy (strategy : RemediationStrategy) (input : RemediationInput) :
    RemediationResult :=
  let result := strategy.run input
  { result with strategyType := strategy.stype }

/-- Failed result synthesized by `executeProtocol` for a strategy type the
registry cannot resolve. -/
def unknownStrategyResult (cfg : StrategyConfig) (err : String) : RemediationResult :=
  { strategyType := cfg.type
    success := false
    message := "Unknown strategy type: " ++ cfg.type
    duration := 0
    error := some err }

/-- internal/remediation `Engine.executeProtocol`: empty strategy list gives
an executed-but-empty result; otherwise each configured strategy either
resolves in the registry and runs, or yields an immediate unknown-type
failure.  The Go code launches resolved strategies concurrently and collects
from a channel buffered to hold every result, so on the normal path (no
deadline expiry) the collected results are exactly one per configured
strategy; the model lists them in configuration order, while Go's channel
yields completion order (the spec leaves the order unspecified). -/
def executeProtocol (reg : List (String × RemediationStrategy)) (protocol : Protocol)
    (input : RemediationInput) : RemediationResults :=
  if protocol.strategies.length = 0 then
    { executed := true, results := [], totalDuration := 0, protocolName := protocol.name }
  else
    let results := protocol.strategies.map (fun cfg =>
      match GetStrategy reg cfg.type with
      | Except.error err => unknownStrategyResult cfg err
      | Except.ok strategy => executeStrategy strategy input)
    { executed := true, results := results, totalDuration := 0, protocolName := protocol.name }

/-- Does a strategy config resolve in the registry. -/
def resolves (reg : List (String × RemediationStrategy)) (cfg : StrategyConfig) : Bool :=
  (GetStrategy reg cfg.type).toOption.isSome

/-- Fixture: a registered strategy used to instantiate the theorems below. -/
def wStrategy : RemediationStrategy :=
  { stype := "log"
    run := fun _ =>
      { strategyType := "", success := true, message := "logged 1 finding",
        duration := 0, error := none } }

/-- Fixture: a registry holding only the `log` strategy. -/
def wRegistry : List (String × RemediationStrategy) := [("log", wStrategy)]

/-- Fixture: a remediation input with one high-severity finding and a
blocking decision. -/
def wInput : RemediationInput :=
  { scanResults := ⟨true, [⟨"high", "api_key", "prompt", "AWS key"⟩], 0, none⟩
    decision := ⟨true, "blocked", []⟩
    timestamp := 0
    framework := "claude" }

/-- Fixture: a protocol configuring one resolvable and one unknown
strategy. -/
def wProtocol : Protocol :=
  { name := "default"
    triggers := ⟨true, false, "", []⟩
    strategies := [⟨"log"⟩, ⟨"bogus"⟩] }

theorem countP_bool_split {α : Type} (p : α → Bool) (l : List α) :
    l.countP p + l.countP (fun a => !p a) = l.length := by
  induction l with
  | nil => simp
  | cons a t ih =>
    cases h : p a <;> simp [List.countP_cons, h] <;> omega

/-- C1: for every decision and remediation results, `EnrichWithRemediation`
leaves `block` and `metadata` unchanged (it may modify only `reason`), and
is a full no-op whenever `executed` is false or `results` is empty. -/
theorem enrich_frame_and_noop (d : Decision) (r : RemediationResults) :
    (EnrichWithRemediation d r).block = d.block ∧
      (EnrichWithRemediation d r).metadata = d.metadata ∧
      ((r.executed = false ∨ r.results = []) → EnrichWithRemediation d r = d) := by
  refine ⟨?_, ?_, ?_⟩
  · unfold EnrichWithRemediation
    split
    · rfl
    · split <;> rfl
  · unfold EnrichWithRemediation
    split
    · rfl
    · split <;> rfl
  · intro h
    have hc : (!r.executed || r.results.length == 0) = true := by
      rcases h with h | h
      · simp [h]
      · simp [h]
    unfold EnrichWithRemediation
    rw [if_pos hc]

theorem enrich_frame_and_noop_witness :
    EnrichWithRemediation ⟨true, "blocked", []⟩ ⟨false, [], 0, ""⟩ = ⟨true, "blocked", []⟩ :=
  (enrich_frame_and_noop ⟨true, "blocked", []⟩ ⟨false, [], 0, ""⟩).2.2 (Or.inl rfl)

/-- C2 counterexample: with `blockOnFindings = false`, a scan with one
high-severity finding above a low threshold yields block = false but
EMPTY metadata — the filtered findings are not recorded, contrary to the
claim. -/
theorem evaluate_noblock_metadata_counterexample :
    (Evaluate ⟨false, "low"⟩ ⟨true, [⟨"high", "api_key", "prompt", "AWS key"⟩], 0, none⟩).1.block
        = false ∧
      filterBySeverity ⟨false, "low"⟩ [⟨"high", "api_key", "prompt", "AWS key"⟩] ≠ [] ∧
      (Evaluate ⟨false, "low"⟩
          ⟨true, [⟨"high", "api_key", "prompt", "AWS key"⟩], 0, none⟩).1.metadata = [] := by
  decide

/-- C2 amended: with no scan error, findings present, a non-empty filtered
set, and `blockOnFindings = false`, `Evaluate` returns block = false and no
error, but records nothing in the decision's metadata. -/
theorem evaluate_noblock_no_metadata (cfg : DecisionConfig) (results : ScanResults)
    (he : results.error = none) (hf : results.hasFindings = true)
    (hr : filterBySeverity cfg results.findings ≠ []) (hb : cfg.blockOnFindings = false) :
    (Evaluate cfg results).1.block = false ∧
      (Evaluate cfg results).1.metadata = [] ∧
      (Evaluate cfg results).2 = none := by
  unfold Evaluate
  rw [he]
  simp only [hf, Bool.not_true, Bool.false_eq_true, if_false, hb, if_neg]
  rw [if_neg (by simpa [List.length_eq_zero] using hr)]
  exact ⟨rfl, rfl, rfl⟩

theorem evaluate_noblock_no_metadata_witness :
    (Evaluate ⟨false, "low"⟩ ⟨true, [⟨"high", "api_key", "prompt", "AWS key"⟩], 0, none⟩).1.block
        = false ∧
      (Evaluate ⟨false, "low"⟩
          ⟨true, [⟨"high", "api_key", "prompt", "AWS key"⟩], 0, none⟩).1.metadata = [] ∧
      (Evaluate ⟨false, "low"⟩
          ⟨true, [⟨"high", "api_key", "prompt", "AWS key"⟩], 0, none⟩).2 = none :=
  evaluate_noblock_no_metadata ⟨false, "low"⟩
    ⟨true, [⟨"high", "api_key", "prompt", "AWS key"⟩], 0, none⟩ rfl rfl (by decide) rfl

/-- C4: a protocol whose triggers have `onBlock = false` and
`onFindings = false` never executes, for every remediation input and
whatever its other trigger fields hold. -/
theorem shouldExecute_dead_protocol (p : Protocol) (input : RemediationInput)
    (hb : p.triggers.onBlock = false) (hf : p.triggers.onFindings = false) :
    ShouldExecute p input = false := by
  unfold ShouldExecute
  rw [hb, hf]
  simp

theorem shouldExecute_dead_protocol_witness :
    ShouldExecute
      { name := "dead", triggers := ⟨false, false, "high", ["aws_*"]⟩, strategies := [⟨"log"⟩] }
      wInput = false :=
  shouldExecute_dead_protocol
    { name := "dead", triggers := ⟨false, false, "high", ["aws_*"]⟩, strategies := [⟨"log"⟩] }
    wInput rfl rfl

/-- C5: when the scan reports an error, `Evaluate` fails open: block =
false, the error string recorded under the `scan_error` metadata key, no
error returned, and the findings never examined (the result is the same
whatever the findings are). -/
theorem evaluate_fail_open_on_scan_error (cfg : DecisionConfig) (results : ScanResults)
    (e : String) (h : results.error = some e) :
    Evaluate cfg results =
      ({ block := false, reason := "", metadata := [("scan_error", MetaValue.str e)] }, none) := by
  unfold Evaluate
  rw [h]

theorem evaluate_fail_open_on_scan_error_witness :
    Evaluate ⟨true, "low"⟩
        ⟨true, [⟨"high", "api_key", "prompt", "AWS key"⟩], 0, some "radar binary missing"⟩ =
      ({ block := false, reason := "",
         metadata := [("scan_error", MetaValue.str "radar binary missing")] }, none) :=
  evaluate_fail_open_on_scan_error ⟨true, "low"⟩
    ⟨true, [⟨"high", "api_key", "prompt", "AWS key"⟩], 0, some "radar binary missing"⟩
    "radar binary missing" rfl

/-- C6: the decision engine's severity mapping and the policy matcher's
severity mapping are extensionally equal, and both realize the
specification's table low=1, medium/info=2, high=3, critical=4,
case-insensitively, with every other string mapping to 0. -/
theorem getSeverityLevel_shared_and_spec (s : String) :
    Decision.getSeverityLevel s = Remediation.getSeverityLevel s ∧
      Decision.getSeverityLevel s = specSeverityLevel s := by
  refine ⟨rfl, ?_⟩
  unfold Decision.getSeverityLevel specSeverityLevel
  generalize toLowerStr s = t
  dsimp only
  split_ifs <;> simp_all

/-- C7: lowering the severity threshold only enlarges the filtered finding
set — every finding passing the filter under the stricter threshold also
passes under the laxer one. -/
theorem filterBySeverity_monotone (findings : List Finding) (c1 c2 : DecisionConfig)
    (h : Decision.getSeverityLevel c1.severityThreshold
        < Decision.getSeverityLevel c2.severityThreshold) :
    ∀ f ∈ filterBySeverity c2 findings, f ∈ filterBySeverity c1 findings := by
  intro f hf
  unfold filterBySeverity at hf ⊢
  rw [List.mem_filter] at hf ⊢
  refine ⟨hf.1, ?_⟩
  have h2 := hf.2
  simp only [decide_eq_true_iff] at h2 ⊢
  omega

theorem filterBySeverity_monotone_witness :
    (⟨"high", "api_key", "prompt", "AWS key"⟩ : Finding) ∈
      filterBySeverity ⟨true, "low"⟩ [⟨"high", "api_key", "prompt", "AWS key"⟩] :=
  filterBySeverity_monotone [⟨"high", "api_key", "prompt", "AWS key"⟩]
    ⟨true, "low"⟩ ⟨true, "high"⟩ (by decide)
    ⟨"high", "api_key", "prompt", "AWS key"⟩ (by decide)

/-- C8: a pattern without any `*` matches exactly the identical string, and
the wildcard pattern `aws_*` matches `aws_access_key_id` and
`aws_secret_key` but not `github_token`. -/
theorem matchesPattern_exact_and_wildcard :
    (∀ ft p : String, p.data.contains '*' = false →
        (matchesPattern ft p = true ↔ ft = p)) ∧
      matchesPattern "aws_access_key_id" "aws_*" = true ∧
      matchesPattern "aws_secret_key" "aws_*" = true ∧
      matchesPattern "github_token" "aws_*" = false := by
  refine ⟨?_, by decide, by decide, by decide⟩
  intro ft p h
  unfold matchesPattern matchesPatternChars
  have hne : p.data ≠ ['*'] := by
    intro he
    rw [he] at h
    simp at h
  rw [if_neg hne, h]
  simp [String.ext_iff]

theorem matchesPattern_exact_and_wildcard_witness :
    matchesPattern "api_key" "api_key" = true :=
  (matchesPattern_exact_and_wildcard.1 "api_key" "api_key" (by decide)).mpr rfl

/-- C9: `formatDuration` renders durations whose millisecond count is under
1000 as integer milliseconds with suffix `ms`, renders the rest as seconds
with exactly one decimal digit and suffix `s`, and in particular maps 999ms
to `999ms`, 1000ms to `1.0s`, and 2345ms to `2.3s`. -/
theorem formatDuration_spec :
    (∀ d : Int, d.tdiv 1000000 < 1000 →
        formatDuration d = toString (d.tdiv 1000000) ++ "ms") ∧
      (∀ d : Int, 1000 ≤ d.tdiv 1000000 →
        ∃ n k : Nat, k < 10 ∧
          formatDuration d = toString n ++ "." ++ toString k ++ "s") ∧
      formatDuration (999 * 1000000) = "999ms" ∧
      formatDuration (1000 * 1000000) = "1.0s" ∧
      formatDuration (2345 * 1000000) = "2.3s" := by
  refine ⟨?_, ?_, by decide, by decide, by decide⟩
  · intro d h
    unfold formatDuration
    rw [if_pos h]
  · intro d h
    unfold formatDuration
    rw [if_neg (by omega)]
    exact ⟨_, _, by omega, rfl⟩

theorem formatDuration_spec_witness :
    formatDuration (999 * 1000000) = toString ((999 * 1000000 : Int).tdiv 1000000) ++ "ms" ∧
      ∃ n k : Nat, k < 10 ∧
        formatDuration (2345 * 1000000) = toString n ++ "." ++ toString k ++ "s" :=
  ⟨formatDuration_spec.1 (999 * 1000000) (by decide),
   formatDuration_spec.2.1 (2345 * 1000000) (by decide)⟩

/-- C10: the matcher's final-segment check is a bare ending test,
independent of where the middle segments matched: `*x*x` matches `ax` even
though `ax` contains only a single `x`, so the two `x` segments cannot be
placed at non-overlapping positions in order. -/
theorem matchesPattern_overlapping_segments :
    matchesPattern "ax" "*x*x" = true ∧ "ax".data.count 'x' = 1 := by
  decide

/-- C3: `executeProtocol` yields exactly one result per configured strategy
(N in all): each strategy that fails to resolve in the registry contributes
an immediate unknown-type failure, each strategy that resolves contributes
its execution outcome, and the resolving (M) and non-resolving (N−M)
strategies together account for all N. -/
theorem executeProtocol_result_counts (reg : List (String × RemediationStrategy))
    (p : Protocol) (input : RemediationInput) :
    ((executeProtocol reg p input).results.length = p.strategies.length) ∧
      (p.strategies.countP (resolves reg) +
          p.strategies.countP (fun c => !resolves reg c) = p.strategies.length) ∧
      (∀ i : Nat, ∀ cfg : StrategyConfig, p.strategies[i]? = some cfg →
        (∀ err : String, GetStrategy reg cfg.type = Except.error err →
            (executeProtocol reg p input).results[i]? =
              some (unknownStrategyResult cfg err)) ∧
        (∀ s : RemediationStrategy, GetStrategy reg cfg.type = Except.ok s →
            (executeProtocol reg p input).results[i]? =
              some (executeStrategy s input))) := by
  refine ⟨?_, countP_bool_split _ _, ?_⟩
  · unfold executeProtocol
    split
    · rename_i h
      simpa using h.symm
    · simp
  · intro i cfg hcfg
    have hi : i < p.strategies.length := by
      have := List.getElem?_eq_some.mp hcfg
      exact this.1
    have hne : ¬ p.strategies.length = 0 := by omega
    constructor
    · intro err herr
      unfold executeProtocol
      rw [if_neg hne]
      simp only [List.getElem?_map, hcfg, Option.map_some', herr]
    · intro s hs
      unfold executeProtocol
      rw [if_neg hne]
      simp only [List.getElem?_map, hcfg, Option.map_some', hs]

theorem executeProtocol_result_counts_witness :
    (executeProtocol wRegistry wProtocol wInput).results.length = 2 ∧
      (executeProtocol wRegistry wProtocol wInput).results[0]? =
        some (executeStrategy wStrategy wInput) ∧
      (executeProtocol wRegistry wProtocol wInput).results[1]? =
        some (unknownStrategyResult ⟨"bogus"⟩ "strategy type \"bogus\" not found") :=
  ⟨(executeProtocol_result_counts wRegistry wProtocol wInput).1,
   ((executeProtocol_result_counts wRegistry wProtocol wInput).2.2 0 ⟨"log"⟩ rfl).2
     wStrategy rfl,
   ((executeProtocol_result_counts wRegistry wProtocol wInput).2.2 1 ⟨"bogus"⟩ rfl).1
     "strategy type \"bogus\" not found" rfl⟩
